import Mathlib

/-!
# Deployment helpers: `deployPoolsProxy`, `deployPrivatesProxy`, `deployValidatorsRegistry`

A shallow embedding of `src/deployments/collectors.js` and
`src/deployments/validatorsRegistry.js`.

The three functions are JavaScript `async` functions.  Each one destructures
its single argument, builds an options object with an object literal that ends
in `...networkConfig`, awaits `scripts.create(options)`, reads
`proxy.address`, logs one template string and returns the address.

* JavaScript values are the type `Val` (the data fragment: no functions, no
  symbols, no accessors). A string value is the list of its UTF-16 code units,
  as in the language; property keys are Unicode text.
* `scripts.create` belongs to the third-party upgrade framework and is a
  parameter of every definition: a function from the framework state and the
  options object to an outcome (rejected with a value, or resolved with a
  value) and a new framework state.
* `await` is sequential composition: the function continues with the value
  the call resolved with, or is rejected with the value the call was rejected
  with.
* Effects are recorded in a trace of events, in program order.
-/

namespace Deployments

/-- A JavaScript string value: the list of its UTF-16 code units, each below
`0x10000`. -/
abbrev JSString := List Nat

/-- The code units of one Unicode character: itself below `0x10000`, a
surrogate pair above. -/
def utf16Char (c : Char) : JSString :=
  if c.toNat < 0x10000 then [c.toNat]
  else [0xD800 + (c.toNat - 0x10000) / 0x400, 0xDC00 + (c.toNat - 0x10000) % 0x400]

/-- The JavaScript string value that a piece of source text denotes. -/
def utf16 (s : String) : JSString :=
  (s.data.map utf16Char).flatten

/-- JavaScript data values.  `num r` is the number whose canonical rendering
(the result of `ToString`) is `r`.  An `obj` lists own enumerable data
properties the way an object literal does: when a key occurs twice the later
entry is the property's value. -/
inductive Val where
  | undefined : Val
  | null : Val
  | bool (b : Bool) : Val
  | num (r : String) : Val
  | str (s : JSString) : Val
  | arr (xs : List Val) : Val
  | obj (kvs : List (String × Val)) : Val

/-- What an `async` function can be rejected with: a value raised by the
framework call, or a `TypeError` created by the language itself while running
the function's own code. -/
inductive Thrown where
  | raised (e : Val) : Thrown
  | typeError : Thrown

/-- The string value written as the literal `s` in source text. -/
def Val.text (s : String) : Val := .str (utf16 s)

/-- One observable effect of a deployment function. -/
inductive Event where
  | created (options : Val) : Event
  | logged (line : JSString) : Event

/-- The state a deployment runs in: the state of the framework (chain, signer,
stub bookkeeping) and the effects so far, oldest first. -/
structure World (σ : Type) where
  fw : σ
  trace : List Event

/-- The signature of `scripts.create` once awaited: `Except.error e` is a
rejection (or a synchronous throw) with `e`, `Except.ok p` a resolution
with `p`. -/
abbrev Create (σ : Type) := σ → Val → Except Val Val × σ

/-- The value of the last entry for `k`, if any. -/
def lookupLast : List (String × Val) → String → Option Val
  | [], _ => none
  | (k', v) :: rest, k =>
    match lookupLast rest k with
    | some w => some w
    | none => if k' = k then some v else none

/-- `undefined` and `null`: the values that `RequireObjectCoercible` and
property access reject. -/
def Val.isNullish : Val → Bool
  | .undefined => true
  | .null => true
  | _ => false

/-- Property read `v.k` (or a destructuring read of `k`) on a value that is
not nullish, for a key `k` that no built-in prototype defines and that is
neither `length` nor an index: only an object's own property can answer. All
keys read by the source are of this kind (`depositsProxy`, `settingsProxy`,
`operatorsProxy`, `vrc`, `validatorsRegistryProxy`, `poolsProxy`,
`privatesProxy`, `salt`, `networkConfig`, `address`). -/
def Val.getField : Val → String → Val
  | .obj kvs, k => (lookupLast kvs k).getD .undefined
  | _, _ => .undefined

/-- Member access `v.k`: a `TypeError` on `undefined` and `null`. -/
def Val.getMember (v : Val) (k : String) : Except Thrown Val :=
  if v.isNullish then .error .typeError else .ok (v.getField k)

/-- Entries `0 ↦ x₀, 1 ↦ x₁, …` starting at index `i`. -/
def indexed (i : Nat) : List Val → List (String × Val)
  | [] => []
  | x :: xs => (toString i, x) :: indexed (i + 1) xs

/-- The own enumerable properties that a spread `...v` inside an object
literal copies (`CopyDataProperties`): nothing for `undefined`, `null`,
booleans and numbers; for a string one indexed entry per UTF-16 code unit,
each a string of that single unit; the indexed elements of an array; the
properties of an object. -/
def Val.ownEntries : Val → List (String × Val)
  | .str s => indexed 0 (s.map fun u => Val.str [u])
  | .arr xs => indexed 0 xs
  | .obj kvs => kvs
  | _ => []

/-- The own enumerable property `k` of `v`, `none` when `v` has none. -/
def Val.own (v : Val) (k : String) : Option Val :=
  lookupLast v.ownEntries k

/-- Whether `v` defines the key `k`, that is, whether the spread of `v`
writes it. -/
def Val.definesKey (v : Val) (k : String) : Bool :=
  (v.own k).isSome

mutual
/-- `ToString` as applied by a template literal; `none` is a `TypeError`. An
object renders through `Object.prototype.toString` unless it has an own
`toString` property, which in this data fragment is never callable, so that
`ToPrimitive` ends in a `TypeError`. An array renders through `join`. -/
def Val.toStr : Val → Option JSString
  | .undefined => some (utf16 "undefined")
  | .null => some (utf16 "null")
  | .bool b => some (utf16 (if b then "true" else "false"))
  | .num r => some (utf16 r)
  | .str s => some s
  | .arr xs => Val.joinElems xs
  | .obj kvs =>
    if (lookupLast kvs "toString").isSome then none else some (utf16 "[object Object]")
/-- `Array.prototype.join` with the separator `,`: `undefined` and `null`
elements render as the empty string. -/
def Val.joinElems : List Val → Option JSString
  | [] => some []
  | [x] => Val.elemStr x
  | x :: y :: rest =>
    match Val.elemStr x, Val.joinElems (y :: rest) with
    | some a, some b => some (a ++ utf16 "," ++ b)
    | _, _ => none
/-- One element of a `join`. -/
def Val.elemStr : Val → Option JSString
  | .undefined => some []
  | .null => some []
  | .bool b => some (utf16 (if b then "true" else "false"))
  | .num r => some (utf16 r)
  | .str s => some s
  | .arr xs => Val.joinElems xs
  | .obj kvs =>
    if (lookupLast kvs "toString").isSome then none else some (utf16 "[object Object]")
end

/-- Modelled from the spec: `log` of `src/deployments/common.js`, which is not
among the source files. The spec describes it as the reporting facility that
records one human-readable line per call, a pure side effect with no return
value: it appends the line to the trace. -/
def log (line : JSString) {σ : Type} (w : World σ) : World σ :=
  { w with trace := w.trace ++ [Event.logged line] }

/-- The object literal passed to `scripts.create` by `deployPoolsProxy`
(collectors.js, lines 13 to 25): four fixed entries, then the spread of
`networkConfig`. `input` is the function's argument, read by destructuring. -/
def poolsOptions (input : Val) : Val :=
  .obj ([("contractAlias", .text "Pools"),
         ("methodName", .text "initialize"),
         ("methodArgs", .arr [input.getField "depositsProxy",
                              input.getField "settingsProxy",
                              input.getField "operatorsProxy",
                              input.getField "vrc",
                              input.getField "validatorsRegistryProxy"]),
         ("salt", input.getField "salt")]
        ++ (input.getField "networkConfig").ownEntries)

/-- The object literal passed to `scripts.create` by `deployPrivatesProxy`
(collectors.js, lines 40 to 52). -/
def privatesOptions (input : Val) : Val :=
  .obj ([("contractAlias", .text "Privates"),
         ("methodName", .text "initialize"),
         ("methodArgs", .arr [input.getField "depositsProxy",
                              input.getField "settingsProxy",
                              input.getField "operatorsProxy",
                              input.getField "vrc",
                              input.getField "validatorsRegistryProxy"]),
         ("salt", input.getField "salt")]
        ++ (input.getField "networkConfig").ownEntries)

/-- The object literal passed to `scripts.create` by
`deployValidatorsRegistry` (validatorsRegistry.js, lines 11 to 17). -/
def validatorsRegistryOptions (input : Val) : Val :=
  .obj ([("contractAlias", .text "ValidatorsRegistry"),
         ("methodName", .text "initialize"),
         ("methodArgs", .arr [input.getField "poolsProxy",
                              input.getField "privatesProxy",
                              input.getField "settingsProxy"]),
         ("salt", input.getField "salt")]
        ++ (input.getField "networkConfig").ownEntries)

/-- The part of the three functions after the options object is built:
`const proxy = await scripts.create(options)`, then
`log(label + proxy.address)` as a template literal, whose value is the code
units of the label followed by those of the rendered address, then
`return proxy.address`. -/
def createAndReport {σ : Type} (create : Create σ) (label : String)
    (options : Val) (w : World σ) : Except Thrown Val × World σ :=
  let w1 : World σ :=
    { fw := (create w.fw options).2, trace := w.trace ++ [Event.created options] }
  match (create w.fw options).1 with
  | .error e => (.error (.raised e), w1)
  | .ok proxy =>
    match proxy.getMember "address" with
    | .error t => (.error t, w1)
    | .ok address =>
      match address.toStr with
      | none => (.error .typeError, w1)
      | some text => (.ok address, log (utf16 label ++ text) w1)

/-- `deployPoolsProxy` of collectors.js. Destructuring the parameter throws a
`TypeError` on `undefined` and `null` before anything else runs. -/
def deployPoolsProxy {σ : Type} (create : Create σ) (input : Val)
    (w : World σ) : Except Thrown Val × World σ :=
  if input.isNullish then (.error .typeError, w)
  else createAndReport create "Pools contract: " (poolsOptions input) w

/-- `deployPrivatesProxy` of collectors.js. -/
def deployPrivatesProxy {σ : Type} (create : Create σ) (input : Val)
    (w : World σ) : Except Thrown Val × World σ :=
  if input.isNullish then (.error .typeError, w)
  else createAndReport create "Privates contract: " (privatesOptions input) w

/-- `deployValidatorsRegistry` of validatorsRegistry.js. -/
def deployValidatorsRegistry {σ : Type} (create : Create σ) (input : Val)
    (w : World σ) : Except Thrown Val × World σ :=
  if input.isNullish then (.error .typeError, w)
  else createAndReport create "Validators Registry contract: "
    (validatorsRegistryOptions input) w

/-- The options objects of the `scripts.create` calls in a trace, in order. -/
def createCalls : List Event → List Val
  | [] => []
  | .created o :: rest => o :: createCalls rest
  | .logged _ :: rest => createCalls rest

/-- The lines passed to `log` in a trace, in order. -/
def logLines : List Event → List JSString
  | [] => []
  | .created _ :: rest => logLines rest
  | .logged l :: rest => l :: logLines rest

/-- A stub whose `create` always resolves with the same proxy. -/
def stubOk (proxy : Val) : Create Unit := fun s _ => (.ok proxy, s)

/-- A stub whose `create` always rejects with the same value. -/
def stubFail (e : Val) : Create Unit := fun s _ => (.error e, s)

/-- A stub with a call counter: the first call resolves with the proxy at
`0xP001`, every later call with the proxy at `0xR001`. -/
def stubNth : Create Nat := fun n _ =>
  (.ok (.obj [("address", .text (if n = 0 then "0xP001" else "0xR001"))]), n + 1)

/-- The empty world of the counting stub. -/
def worldNth : World Nat := { fw := 0, trace := [] }

/-- The empty world of the stubs. -/
def world0 : World Unit := { fw := (), trace := [] }

/-- The example input of the spec's scenario for Pools and Privates. -/
def exampleInput : Val :=
  .obj [("depositsProxy", .text "0xD1"), ("settingsProxy", .text "0xS1"),
        ("operatorsProxy", .text "0xO1"), ("vrc", .text "0xVC"),
        ("validatorsRegistryProxy", .text "0xVR1"), ("salt", .text "0x5a17"),
        ("networkConfig", .obj [("network", .text "development")])]

/-- The spec's example record for Pools and Privates with `networkConfig`
replaced by `nc`. -/
def inputWithConfig (nc : Val) : Val :=
  .obj [("depositsProxy", .text "0xD1"), ("settingsProxy", .text "0xS1"),
        ("operatorsProxy", .text "0xO1"), ("vrc", .text "0xVC"),
        ("validatorsRegistryProxy", .text "0xVR1"), ("salt", .text "0x5a17"),
        ("networkConfig", nc)]

/-- An example input of `deployValidatorsRegistry`, fields in the order of
the source's parameter list. -/
def exampleRegistryInput : Val :=
  .obj [("networkConfig", .obj [("network", .text "development")]),
        ("settingsProxy", .text "0xS1"), ("poolsProxy", .text "0xP001"),
        ("privatesProxy", .text "0xR001"), ("salt", .text "0x5a17")]

/-- The fixed fields that each operation writes before the spread. -/
def fixedFields (contractAlias : String) (methodArgs : List Val) (salt : Val) : Val :=
  .obj [("contractAlias", .text contractAlias), ("methodName", .text "initialize"),
        ("methodArgs", .arr methodArgs), ("salt", salt)]

/-- Right-biased merge of two values read as property maps: the property of
`b` where `b` defines the key, the property of `a` elsewhere. -/
def mergeRight (a b : Val) (k : String) : Option Val :=
  match b.own k with
  | some v => some v
  | none => a.own k

/-! ## Lemmas -/

theorem lookupLast_append (xs ys : List (String × Val)) (k : String) :
    lookupLast (xs ++ ys) k =
      match lookupLast ys k with
      | some v => some v
      | none => lookupLast xs k := by
  induction xs with
  | nil => cases h : lookupLast ys k <;> simp [lookupLast, h]
  | cons x xs ih =>
    obtain ⟨k', v⟩ := x
    show (match lookupLast (xs ++ ys) k with
          | some w => some w
          | none => if k' = k then some v else none) = _
    rw [ih]
    simp only [lookupLast]
    cases lookupLast ys k <;> rfl

theorem own_obj_append (xs ys : List (String × Val)) (k : String) :
    (Val.obj (xs ++ ys)).own k =
      match lookupLast ys k with
      | some v => some v
      | none => lookupLast xs k := by
  simp only [Val.own, Val.ownEntries, lookupLast_append]

/-- Every way a run of the common tail can go. -/
theorem createAndReport_cases {σ : Type} (create : Create σ) (label : String)
    (o : Val) (w : World σ) :
    (∃ e, (create w.fw o).1 = .error e ∧
        (createAndReport create label o w).1 = .error (.raised e) ∧
        (createAndReport create label o w).2.trace = w.trace ++ [Event.created o]) ∨
    (∃ p, (create w.fw o).1 = .ok p ∧ p.isNullish = true ∧
        (createAndReport create label o w).1 = .error .typeError ∧
        (createAndReport create label o w).2.trace = w.trace ++ [Event.created o]) ∨
    (∃ p, (create w.fw o).1 = .ok p ∧ p.isNullish = false ∧
        (p.getField "address").toStr = none ∧
        (createAndReport create label o w).1 = .error .typeError ∧
        (createAndReport create label o w).2.trace = w.trace ++ [Event.created o]) ∨
    (∃ p text, (create w.fw o).1 = .ok p ∧ p.isNullish = false ∧
        (p.getField "address").toStr = some text ∧
        (createAndReport create label o w).1 = .ok (p.getField "address") ∧
        (createAndReport create label o w).2.trace =
          w.trace ++ [Event.created o, Event.logged (utf16 label ++ text)]) := by
  unfold createAndReport
  cases hc : (create w.fw o).1 with
  | error e => left; exact ⟨e, rfl, rfl, rfl⟩
  | ok p =>
    right
    cases hn : p.isNullish with
    | true => left; refine ⟨p, rfl, hn, ?_, ?_⟩ <;> simp [Val.getMember, hn]
    | false =>
      right
      cases ht : (p.getField "address").toStr with
      | none => left; refine ⟨p, rfl, hn, ht, ?_, ?_⟩ <;> simp [Val.getMember, hn, ht]
      | some text =>
        right; refine ⟨p, text, rfl, hn, ht, ?_, ?_⟩ <;> simp [Val.getMember, hn, ht, log]

/-- The trace of the common tail: the call to `create` first, then at most
one log line, which needs a resolved call. -/
theorem createAndReport_trace {σ : Type} (create : Create σ) (label : String)
    (o : Val) (w : World σ) :
    (createAndReport create label o w).2.trace = w.trace ++ [Event.created o] ∨
    ∃ p text, (create w.fw o).1 = .ok p ∧
      (createAndReport create label o w).2.trace =
        w.trace ++ [Event.created o, Event.logged (utf16 label ++ text)] := by
  rcases createAndReport_cases create label o w with
    ⟨_, _, _, h⟩ | ⟨_, _, _, _, h⟩ | ⟨_, _, _, _, _, h⟩ | ⟨p, text, hc, _, _, _, h⟩
  · exact Or.inl h
  · exact Or.inl h
  · exact Or.inl h
  · exact Or.inr ⟨p, text, hc, h⟩

theorem createAndReport_call {σ : Type} (create : Create σ) (label : String)
    (o : Val) (w : World σ) :
    ∃ rest, (createAndReport create label o w).2.trace = w.trace ++ Event.created o :: rest
      ∧ createCalls rest = [] := by
  rcases createAndReport_trace create label o w with h | ⟨p, text, _, h⟩
  · exact ⟨[], h, rfl⟩
  · exact ⟨[Event.logged (utf16 label ++ text)], h, rfl⟩

theorem deployPoolsProxy_record {σ : Type} (create : Create σ) (input : Val)
    (w : World σ) (hrec : input.isNullish = false) :
    deployPoolsProxy create input w
      = createAndReport create "Pools contract: " (poolsOptions input) w := by
  simp [deployPoolsProxy, hrec]

theorem deployPrivatesProxy_record {σ : Type} (create : Create σ) (input : Val)
    (w : World σ) (hrec : input.isNullish = false) :
    deployPrivatesProxy create input w
      = createAndReport create "Privates contract: " (privatesOptions input) w := by
  simp [deployPrivatesProxy, hrec]

theorem deployValidatorsRegistry_record {σ : Type} (create : Create σ) (input : Val)
    (w : World σ) (hrec : input.isNullish = false) :
    deployValidatorsRegistry create input w
      = createAndReport create "Validators Registry contract: "
          (validatorsRegistryOptions input) w := by
  simp [deployValidatorsRegistry, hrec]

/-- A fixed field survives the spread when the spread value does not define
its key. -/
theorem own_fixed_of_not_defined (fixed : List (String × Val)) (nc : Val) (k : String)
    (h : nc.definesKey k = false) :
    (Val.obj (fixed ++ nc.ownEntries)).own k = lookupLast fixed k := by
  rw [own_obj_append]
  simp only [Val.definesKey, Val.own] at h
  cases hl : lookupLast nc.ownEntries k with
  | none => rfl
  | some v => simp [hl] at h

theorem lookupLast_mem (kvs : List (String × Val)) (k : String) (v : Val)
    (h : lookupLast kvs k = some v) : (k, v) ∈ kvs := by
  induction kvs with
  | nil => simp [lookupLast] at h
  | cons x xs ih =>
    obtain ⟨k', v'⟩ := x
    simp only [lookupLast] at h
    cases hl : lookupLast xs k with
    | some u =>
      rw [hl] at h
      simp only [Option.some.injEq] at h
      subst h
      exact List.mem_cons_of_mem _ (ih hl)
    | none =>
      rw [hl] at h
      by_cases hk : k' = k
      · simp only [hk, if_true, Option.some.injEq] at h
        subst h; subst hk
        exact List.mem_cons_self _ _
      · simp [hk] at h

theorem lookupLast_eq_some_iff (kvs : List (String × Val)) (k : String) (v : Val)
    (hnd : (kvs.map Prod.fst).Nodup) :
    lookupLast kvs k = some v ↔ (k, v) ∈ kvs := by
  constructor
  · exact lookupLast_mem kvs k v
  · intro hm
    induction kvs with
    | nil => simp at hm
    | cons x xs ih =>
      obtain ⟨k', v'⟩ := x
      simp only [List.map_cons, List.nodup_cons] at hnd
      obtain ⟨hnot, hnd'⟩ := hnd
      simp only [lookupLast]
      rcases List.mem_cons.mp hm with heq | hin
      · simp only [Prod.mk.injEq] at heq
        obtain ⟨rfl, rfl⟩ := heq
        cases hl : lookupLast xs k with
        | some u =>
          exact absurd (List.mem_map_of_mem Prod.fst (lookupLast_mem xs k u hl)) hnot
        | none => simp
      · rw [ih hnd' hin]

/-- With distinct keys, the order of the entries does not matter to a read. -/
theorem lookupLast_perm (kvs kvs' : List (String × Val)) (k : String)
    (hp : kvs.Perm kvs') (hnd : (kvs.map Prod.fst).Nodup) :
    lookupLast kvs' k = lookupLast kvs k := by
  have hnd' : (kvs'.map Prod.fst).Nodup := (hp.map Prod.fst).nodup_iff.mp hnd
  cases h : lookupLast kvs k with
  | some v =>
    exact (lookupLast_eq_some_iff kvs' k v hnd').mpr
      (hp.mem_iff.mp ((lookupLast_eq_some_iff kvs k v hnd).mp h))
  | none =>
    cases h' : lookupLast kvs' k with
    | none => rfl
    | some v =>
      have := (lookupLast_eq_some_iff kvs k v hnd).mpr
        (hp.mem_iff.mpr ((lookupLast_eq_some_iff kvs' k v hnd').mp h'))
      rw [h] at this
      exact absurd this (by simp)

theorem getField_perm (kvs kvs' : List (String × Val)) (k : String)
    (hp : kvs.Perm kvs') (hnd : (kvs.map Prod.fst).Nodup) :
    (Val.obj kvs').getField k = (Val.obj kvs).getField k := by
  simp only [Val.getField, lookupLast_perm kvs kvs' k hp hnd]

theorem logLines_append (xs ys : List Event) :
    logLines (xs ++ ys) = logLines xs ++ logLines ys := by
  induction xs with
  | nil => rfl
  | cons x xs ih => cases x <;> simp [logLines, ih]

/-- The common tail when `create` fails. -/
theorem createAndReport_error {σ : Type} (create : Create σ) (label : String)
    (o : Val) (w : World σ) (e : Val) (h : (create w.fw o).1 = .error e) :
    (createAndReport create label o w).1 = .error (.raised e)
    ∧ (createAndReport create label o w).2.trace = w.trace ++ [Event.created o]
    ∧ logLines (createAndReport create label o w).2.trace = logLines w.trace := by
  have h1 : (createAndReport create label o w).1 = .error (.raised e) := by
    unfold createAndReport; simp only [h]
  have h2 : (createAndReport create label o w).2.trace = w.trace ++ [Event.created o] := by
    unfold createAndReport; simp only [h]
  refine ⟨h1, h2, ?_⟩
  rw [h2, logLines_append]
  simp [logLines]

/-- The common tail when `create` resolves with a value that is neither
`undefined` nor `null` and whose `address` a template literal can render. -/
theorem createAndReport_ok {σ : Type} (create : Create σ) (label : String)
    (o : Val) (w : World σ) (p : Val) (text : JSString)
    (h : (create w.fw o).1 = .ok p) (hp : p.isNullish = false)
    (ht : (p.getField "address").toStr = some text) :
    (createAndReport create label o w).1 = .ok (p.getField "address")
    ∧ (createAndReport create label o w).2.trace
        = w.trace ++ [Event.created o, Event.logged (utf16 label ++ text)] := by
  constructor <;> (unfold createAndReport; simp [h, Val.getMember, hp, ht, log])

/-- A run of the common tail that returns a value: `create` resolved with a
proxy, the value is its `address`, and the one log line is the label followed
by the rendered address. -/
theorem createAndReport_success {σ : Type} (create : Create σ) (label : String)
    (o : Val) (w : World σ) (a : Val)
    (h : (createAndReport create label o w).1 = .ok a) :
    ∃ p text, (create w.fw o).1 = .ok p ∧ p.getField "address" = a
      ∧ a.toStr = some text ∧ (∀ s, a = .str s → text = s)
      ∧ (createAndReport create label o w).2.trace
          = w.trace ++ [Event.created o, Event.logged (utf16 label ++ text)] := by
  rcases createAndReport_cases create label o w with
    ⟨_, _, h1, _⟩ | ⟨_, _, _, h1, _⟩ | ⟨_, _, _, _, h1, _⟩ | ⟨p, text, hc, _, ht, h1, htr⟩
  · rw [h1] at h; cases h
  · rw [h1] at h; cases h
  · rw [h1] at h; cases h
  · rw [h1] at h
    have ha : p.getField "address" = a := by injection h
    refine ⟨p, text, hc, ha, ha ▸ ht, ?_, htr⟩
    intro s hs
    rw [ha, hs] at ht
    simp only [Val.toStr, Option.some.injEq] at ht
    exact ht.symm

/-- A run of the common tail that returns a value got it from a resolved
`create` call. -/
theorem createAndReport_returns {σ : Type} (create : Create σ) (label : String)
    (o : Val) (w : World σ) (a : Val)
    (h : (createAndReport create label o w).1 = .ok a) :
    ∃ p, (create w.fw o).1 = .ok p ∧ p.getField "address" = a := by
  rcases createAndReport_cases create label o w with
    ⟨_, _, h1, _⟩ | ⟨_, _, _, h1, _⟩ | ⟨_, _, _, _, h1, _⟩ | ⟨p, text, hc, _, _, h1, _⟩
  · rw [h1] at h; cases h
  · rw [h1] at h; cases h
  · rw [h1] at h; cases h
  · rw [h1] at h
    exact ⟨p, hc, by injection h⟩

theorem createAndReport_fw {σ : Type} (create : Create σ) (label : String)
    (o : Val) (w : World σ) :
    (createAndReport create label o w).2.fw = (create w.fw o).2 := by
  unfold createAndReport
  cases (create w.fw o).1 with
  | error e => rfl
  | ok p =>
    cases hn : p.isNullish with
    | true => simp [Val.getMember, hn]
    | false =>
      cases ht : (p.getField "address").toStr <;> simp [Val.getMember, hn, ht, log]

theorem deployPoolsProxy_returns {σ : Type} (create : Create σ) (input : Val)
    (w : World σ) (a : Val) (h : (deployPoolsProxy create input w).1 = .ok a) :
    input.isNullish = false
    ∧ ∃ p, (create w.fw (poolsOptions input)).1 = .ok p ∧ p.getField "address" = a := by
  cases hn : input.isNullish with
  | true => simp [deployPoolsProxy, hn] at h
  | false =>
    rw [deployPoolsProxy_record create input w hn] at h
    exact ⟨rfl, createAndReport_returns create _ _ w a h⟩

theorem deployPrivatesProxy_returns {σ : Type} (create : Create σ) (input : Val)
    (w : World σ) (a : Val) (h : (deployPrivatesProxy create input w).1 = .ok a) :
    input.isNullish = false
    ∧ ∃ p, (create w.fw (privatesOptions input)).1 = .ok p ∧ p.getField "address" = a := by
  cases hn : input.isNullish with
  | true => simp [deployPrivatesProxy, hn] at h
  | false =>
    rw [deployPrivatesProxy_record create input w hn] at h
    exact ⟨rfl, createAndReport_returns create _ _ w a h⟩

theorem deployValidatorsRegistry_returns {σ : Type} (create : Create σ) (input : Val)
    (w : World σ) (a : Val) (h : (deployValidatorsRegistry create input w).1 = .ok a) :
    input.isNullish = false
    ∧ ∃ p, (create w.fw (validatorsRegistryOptions input)).1 = .ok p
        ∧ p.getField "address" = a := by
  cases hn : input.isNullish with
  | true => simp [deployValidatorsRegistry, hn] at h
  | false =>
    rw [deployValidatorsRegistry_record create input w hn] at h
    exact ⟨rfl, createAndReport_returns create _ _ w a h⟩

/-- Every failure of the common tail: the error of `create`, or a `TypeError`
on a resolved value that is nullish or whose `address` cannot be rendered. -/
theorem createAndReport_fails {σ : Type} (create : Create σ) (label : String)
    (o : Val) (w : World σ) (t : Thrown)
    (h : (createAndReport create label o w).1 = .error t) :
    (∃ e, t = .raised e ∧ (create w.fw o).1 = .error e)
    ∨ (t = .typeError ∧ ∃ p, (create w.fw o).1 = .ok p
        ∧ (p.isNullish = true ∨ (p.getField "address").toStr = none)) := by
  rcases createAndReport_cases create label o w with
    ⟨e, hc, h1, _⟩ | ⟨p, hc, hn, h1, _⟩ | ⟨p, hc, _, ht, h1, _⟩ | ⟨_, _, _, _, _, h1, _⟩
  · rw [h1] at h; injection h with h
    exact Or.inl ⟨e, h.symm, hc⟩
  · rw [h1] at h; injection h with h
    exact Or.inr ⟨h.symm, p, hc, Or.inl hn⟩
  · rw [h1] at h; injection h with h
    exact Or.inr ⟨h.symm, p, hc, Or.inr ht⟩
  · rw [h1] at h; cases h

/-- An object literal of fixed entries followed by a spread is the
right-biased merge of the two. -/
theorem own_spread_eq_mergeRight (fixed : List (String × Val)) (nc : Val) (k : String) :
    (Val.obj (fixed ++ nc.ownEntries)).own k = mergeRight (.obj fixed) nc k := by
  rw [own_obj_append]
  rfl

theorem ownEntries_of_nullish (nc : Val) (h : nc.isNullish = true) : nc.ownEntries = [] := by
  cases nc <;> first | rfl | simp [Val.isNullish] at h

/-! ## The claims -/

/-- C1. For every input record whose `networkConfig` defines none of
`contractAlias`, `methodName`, `methodArgs`, `salt`, and for every framework
stub, `deployPoolsProxy` calls `create` once with an options object whose
`contractAlias` is `Pools`, whose `methodName` is `initialize`, whose `salt`
is the caller's salt and whose `methodArgs` is the five-element list
deposits, settings, operators, vrc, validatorsRegistry in that order. -/
theorem C1_deployPoolsProxy_call {σ : Type} (create : Create σ) (input : Val)
    (w : World σ) (hrec : input.isNullish = false)
    (hAlias : (input.getField "networkConfig").definesKey "contractAlias" = false)
    (hName : (input.getField "networkConfig").definesKey "methodName" = false)
    (hArgs : (input.getField "networkConfig").definesKey "methodArgs" = false)
    (hSalt : (input.getField "networkConfig").definesKey "salt" = false) :
    ∃ opts rest,
      (deployPoolsProxy create input w).2.trace = w.trace ++ Event.created opts :: rest
      ∧ createCalls rest = []
      ∧ opts.own "contractAlias" = some (.text "Pools")
      ∧ opts.own "methodName" = some (.text "initialize")
      ∧ opts.own "salt" = some (input.getField "salt")
      ∧ opts.own "methodArgs" = some (.arr [input.getField "depositsProxy",
          input.getField "settingsProxy", input.getField "operatorsProxy",
          input.getField "vrc", input.getField "validatorsRegistryProxy"]) := by
  obtain ⟨rest, htrace, hcalls⟩ :=
    createAndReport_call create "Pools contract: " (poolsOptions input) w
  refine ⟨poolsOptions input, rest, ?_, hcalls, ?_, ?_, ?_, ?_⟩
  · rw [deployPoolsProxy_record create input w hrec]; exact htrace
  · unfold poolsOptions; rw [own_fixed_of_not_defined _ _ _ hAlias]; rfl
  · unfold poolsOptions; rw [own_fixed_of_not_defined _ _ _ hName]; rfl
  · unfold poolsOptions; rw [own_fixed_of_not_defined _ _ _ hSalt]; rfl
  · unfold poolsOptions; rw [own_fixed_of_not_defined _ _ _ hArgs]; rfl

/-- Witness of C1: the spec's example scenario. -/
theorem C1_deployPoolsProxy_call_witness :
    (exampleInput.isNullish = false
      ∧ (exampleInput.getField "networkConfig").definesKey "contractAlias" = false
      ∧ (exampleInput.getField "networkConfig").definesKey "methodName" = false
      ∧ (exampleInput.getField "networkConfig").definesKey "methodArgs" = false
      ∧ (exampleInput.getField "networkConfig").definesKey "salt" = false)
    ∧ ∃ opts rest,
      (deployPoolsProxy (stubOk (.obj [("address", .text "0xP001")])) exampleInput world0).2.trace
        = world0.trace ++ Event.created opts :: rest
      ∧ createCalls rest = []
      ∧ opts.own "contractAlias" = some (.text "Pools")
      ∧ opts.own "methodName" = some (.text "initialize")
      ∧ opts.own "salt" = some (.text "0x5a17")
      ∧ opts.own "methodArgs" = some (.arr [.text "0xD1", .text "0xS1", .text "0xO1",
          .text "0xVC", .text "0xVR1"]) :=
  ⟨⟨rfl, rfl, rfl, rfl, rfl⟩,
   C1_deployPoolsProxy_call (stubOk (.obj [("address", .text "0xP001")])) exampleInput world0
     rfl rfl rfl rfl rfl⟩

/-- C2. For every input record whose `networkConfig` defines none of the four
fixed keys, and for every framework stub, `deployValidatorsRegistry` calls
`create` once with `contractAlias` `ValidatorsRegistry`, `methodName`
`initialize`, the caller's salt, and `methodArgs` the three-element list pools,
privates, settings in that order; listing the fields of the input record in
another order changes nothing. -/
theorem C2_deployValidatorsRegistry_call {σ : Type} (create : Create σ) (input : Val)
    (w : World σ) (hrec : input.isNullish = false)
    (hAlias : (input.getField "networkConfig").definesKey "contractAlias" = false)
    (hName : (input.getField "networkConfig").definesKey "methodName" = false)
    (hArgs : (input.getField "networkConfig").definesKey "methodArgs" = false)
    (hSalt : (input.getField "networkConfig").definesKey "salt" = false) :
    (∃ opts rest,
      (deployValidatorsRegistry create input w).2.trace
        = w.trace ++ Event.created opts :: rest
      ∧ createCalls rest = []
      ∧ opts.own "contractAlias" = some (.text "ValidatorsRegistry")
      ∧ opts.own "methodName" = some (.text "initialize")
      ∧ opts.own "salt" = some (input.getField "salt")
      ∧ opts.own "methodArgs" = some (.arr [input.getField "poolsProxy",
          input.getField "privatesProxy", input.getField "settingsProxy"]))
    ∧ ∀ kvs kvs' : List (String × Val), input = .obj kvs → kvs.Perm kvs' →
        (kvs.map Prod.fst).Nodup →
        deployValidatorsRegistry create (.obj kvs') w
          = deployValidatorsRegistry create input w := by
  constructor
  · obtain ⟨rest, htrace, hcalls⟩ := createAndReport_call create
      "Validators Registry contract: " (validatorsRegistryOptions input) w
    refine ⟨validatorsRegistryOptions input, rest, ?_, hcalls, ?_, ?_, ?_, ?_⟩
    · rw [deployValidatorsRegistry_record create input w hrec]; exact htrace
    · unfold validatorsRegistryOptions; rw [own_fixed_of_not_defined _ _ _ hAlias]; rfl
    · unfold validatorsRegistryOptions; rw [own_fixed_of_not_defined _ _ _ hName]; rfl
    · unfold validatorsRegistryOptions; rw [own_fixed_of_not_defined _ _ _ hSalt]; rfl
    · unfold validatorsRegistryOptions; rw [own_fixed_of_not_defined _ _ _ hArgs]; rfl
  · intro kvs kvs' hin hp hnd
    subst hin
    have hopts : validatorsRegistryOptions (.obj kvs') = validatorsRegistryOptions (.obj kvs) := by
      simp only [validatorsRegistryOptions, getField_perm kvs kvs' _ hp hnd]
    rw [deployValidatorsRegistry_record create (.obj kvs') w rfl,
      deployValidatorsRegistry_record create (.obj kvs) w rfl, hopts]

/-- Witness of C2: pools `0xP001`, privates `0xR001`, settings `0xS1`. -/
theorem C2_deployValidatorsRegistry_call_witness :
    (exampleRegistryInput.isNullish = false
      ∧ (exampleRegistryInput.getField "networkConfig").definesKey "contractAlias" = false
      ∧ (exampleRegistryInput.getField "networkConfig").definesKey "methodName" = false
      ∧ (exampleRegistryInput.getField "networkConfig").definesKey "methodArgs" = false
      ∧ (exampleRegistryInput.getField "networkConfig").definesKey "salt" = false)
    ∧ (∃ opts rest,
      (deployValidatorsRegistry (stubOk (.obj [("address", .text "0xV001")]))
          exampleRegistryInput world0).2.trace
        = world0.trace ++ Event.created opts :: rest
      ∧ createCalls rest = []
      ∧ opts.own "contractAlias" = some (.text "ValidatorsRegistry")
      ∧ opts.own "methodName" = some (.text "initialize")
      ∧ opts.own "salt" = some (.text "0x5a17")
      ∧ opts.own "methodArgs" = some (.arr [.text "0xP001", .text "0xR001", .text "0xS1"]))
    ∧ ∀ kvs kvs' : List (String × Val), exampleRegistryInput = .obj kvs → kvs.Perm kvs' →
        (kvs.map Prod.fst).Nodup →
        deployValidatorsRegistry (stubOk (.obj [("address", .text "0xV001")])) (.obj kvs') world0
          = deployValidatorsRegistry (stubOk (.obj [("address", .text "0xV001")]))
              exampleRegistryInput world0 :=
  ⟨⟨rfl, rfl, rfl, rfl, rfl⟩,
   C2_deployValidatorsRegistry_call (stubOk (.obj [("address", .text "0xV001")]))
     exampleRegistryInput world0 rfl rfl rfl rfl rfl⟩

/-- C3. For every input record and every framework stub, the options object
that `deployPrivatesProxy` passes to `create` agrees with the one that
`deployPoolsProxy` passes for the same record on every key other than
`contractAlias`; when `networkConfig` does not define `contractAlias`, that
field is `Privates` in the one and `Pools` in the other. -/
theorem C3_privates_options_match_pools {σ : Type} (create : Create σ) (input : Val)
    (w : World σ) (hrec : input.isNullish = false) :
    ∃ poolsOpts privatesOpts poolsRest privatesRest,
      (deployPoolsProxy create input w).2.trace
        = w.trace ++ Event.created poolsOpts :: poolsRest
      ∧ createCalls poolsRest = []
      ∧ (deployPrivatesProxy create input w).2.trace
        = w.trace ++ Event.created privatesOpts :: privatesRest
      ∧ createCalls privatesRest = []
      ∧ (∀ k, k ≠ "contractAlias" → privatesOpts.own k = poolsOpts.own k)
      ∧ ((input.getField "networkConfig").definesKey "contractAlias" = false →
          privatesOpts.own "contractAlias" = some (.text "Privates")
          ∧ poolsOpts.own "contractAlias" = some (.text "Pools")) := by
  obtain ⟨r1, ht1, hc1⟩ :=
    createAndReport_call create "Pools contract: " (poolsOptions input) w
  obtain ⟨r2, ht2, hc2⟩ :=
    createAndReport_call create "Privates contract: " (privatesOptions input) w
  refine ⟨poolsOptions input, privatesOptions input, r1, r2, ?_, hc1, ?_, hc2, ?_, ?_⟩
  · rw [deployPoolsProxy_record create input w hrec]; exact ht1
  · rw [deployPrivatesProxy_record create input w hrec]; exact ht2
  · intro k hk
    unfold privatesOptions poolsOptions
    rw [own_obj_append, own_obj_append]
    have hk' : ¬ ("contractAlias" = k) := fun h => hk h.symm
    simp only [lookupLast, hk', if_false]
  · intro h
    constructor
    · unfold privatesOptions; rw [own_fixed_of_not_defined _ _ _ h]; rfl
    · unfold poolsOptions; rw [own_fixed_of_not_defined _ _ _ h]; rfl

/-- Witness of C3: the spec's example record, whose `networkConfig` does not
define `contractAlias`. -/
theorem C3_privates_options_match_pools_witness :
    (exampleInput.isNullish = false
      ∧ (exampleInput.getField "networkConfig").definesKey "contractAlias" = false)
    ∧ ∃ poolsOpts privatesOpts poolsRest privatesRest,
      (deployPoolsProxy (stubOk (.obj [("address", .text "0xP001")])) exampleInput world0).2.trace
        = world0.trace ++ Event.created poolsOpts :: poolsRest
      ∧ createCalls poolsRest = []
      ∧ (deployPrivatesProxy (stubOk (.obj [("address", .text "0xP001")]))
          exampleInput world0).2.trace
        = world0.trace ++ Event.created privatesOpts :: privatesRest
      ∧ createCalls privatesRest = []
      ∧ (∀ k, k ≠ "contractAlias" → privatesOpts.own k = poolsOpts.own k)
      ∧ privatesOpts.own "contractAlias" = some (.text "Privates")
      ∧ poolsOpts.own "contractAlias" = some (.text "Pools") := by
  obtain ⟨a, b, c, d, h1, h2, h3, h4, h5, h6⟩ :=
    C3_privates_options_match_pools (stubOk (.obj [("address", .text "0xP001")]))
      exampleInput world0 rfl
  exact ⟨⟨rfl, rfl⟩, a, b, c, d, h1, h2, h3, h4, h5, h6 rfl⟩

/-- C4. For each of the three operations, for every input record and every
framework stub whose `create` call fails with `e`: the operation fails with
that same `e`, no address is returned, and nothing is logged (the trace grows
by the `create` call alone). -/
theorem C4_create_failure_propagates {σ : Type} (create : Create σ) (input : Val)
    (w : World σ) (e : Val) (hrec : input.isNullish = false) :
    ((create w.fw (poolsOptions input)).1 = .error e →
        (deployPoolsProxy create input w).1 = .error (.raised e)
        ∧ (deployPoolsProxy create input w).2.trace
            = w.trace ++ [Event.created (poolsOptions input)]
        ∧ logLines (deployPoolsProxy create input w).2.trace = logLines w.trace)
    ∧ ((create w.fw (privatesOptions input)).1 = .error e →
        (deployPrivatesProxy create input w).1 = .error (.raised e)
        ∧ (deployPrivatesProxy create input w).2.trace
            = w.trace ++ [Event.created (privatesOptions input)]
        ∧ logLines (deployPrivatesProxy create input w).2.trace = logLines w.trace)
    ∧ ((create w.fw (validatorsRegistryOptions input)).1 = .error e →
        (deployValidatorsRegistry create input w).1 = .error (.raised e)
        ∧ (deployValidatorsRegistry create input w).2.trace
            = w.trace ++ [Event.created (validatorsRegistryOptions input)]
        ∧ logLines (deployValidatorsRegistry create input w).2.trace = logLines w.trace) := by
  refine ⟨fun h => ?_, fun h => ?_, fun h => ?_⟩
  · rw [deployPoolsProxy_record create input w hrec]
    exact createAndReport_error create _ _ w e h
  · rw [deployPrivatesProxy_record create input w hrec]
    exact createAndReport_error create _ _ w e h
  · rw [deployValidatorsRegistry_record create input w hrec]
    exact createAndReport_error create _ _ w e h

/-- Witness of C4: a stub that rejects every call with the same value; the
Pools operation on the spec's example record. -/
theorem C4_create_failure_propagates_witness :
    (exampleInput.isNullish = false
      ∧ (stubFail (.text "reverted") world0.fw (poolsOptions exampleInput)).1
          = .error (.text "reverted"))
    ∧ (deployPoolsProxy (stubFail (.text "reverted")) exampleInput world0).1
          = .error (.raised (.text "reverted"))
    ∧ (deployPoolsProxy (stubFail (.text "reverted")) exampleInput world0).2.trace
          = world0.trace ++ [Event.created (poolsOptions exampleInput)]
    ∧ logLines (deployPoolsProxy (stubFail (.text "reverted")) exampleInput world0).2.trace
          = logLines world0.trace :=
  ⟨⟨rfl, rfl⟩,
   (C4_create_failure_propagates (stubFail (.text "reverted")) exampleInput world0
     (.text "reverted") rfl).1 rfl⟩

/-- C5, as stated, fails: `create` resolves with a proxy object whose
`address` is an object with an own `toString` property that is not a function;
the template literal of the log line cannot convert it and the operation is
rejected with a `TypeError` instead of returning the address. -/
theorem C5_unrenderable_address_counterexample :
    (stubOk (.obj [("address", .obj [("toString", .null)])]) world0.fw
        (poolsOptions exampleInput)).1 = .ok (.obj [("address", .obj [("toString", .null)])])
    ∧ (Val.obj [("address", .obj [("toString", .null)])]).isNullish = false
    ∧ (deployPoolsProxy (stubOk (.obj [("address", .obj [("toString", .null)])]))
        exampleInput world0).1 = .error .typeError
    ∧ (deployPoolsProxy (stubOk (.obj [("address", .obj [("toString", .null)])]))
        exampleInput world0).2.trace = [Event.created (poolsOptions exampleInput)]
    ∧ ¬ (∀ (create : Create Unit) (input : Val) (w : World Unit) (p : Val),
          input.isNullish = false → p.isNullish = false →
          (create w.fw (poolsOptions input)).1 = .ok p →
          (deployPoolsProxy create input w).1 = .ok (p.getField "address")) := by
  refine ⟨rfl, rfl, rfl, rfl, ?_⟩
  intro h
  have h1 := h (stubOk (.obj [("address", .obj [("toString", .null)])])) exampleInput world0
    (.obj [("address", .obj [("toString", .null)])]) rfl rfl rfl
  have h2 : (deployPoolsProxy (stubOk (.obj [("address", .obj [("toString", .null)])]))
      exampleInput world0).1 = .error .typeError := rfl
  rw [h2] at h1
  cases h1

/-- C5, amended. For each of the three operations, for every input record and
every framework stub whose `create` call resolves with a proxy `p` (not
`undefined`, not `null`) whose `address` the template literal can convert to a
string `text`, as it can every string address: the operation succeeds, its
return value is `p.address` itself, and it emits one log record, which ends in
that text, the address itself when the address is a string. -/
theorem C5_success_returns_address {σ : Type} (create : Create σ) (input : Val)
    (w : World σ) (p : Val) (text : JSString) (hrec : input.isNullish = false)
    (hp : p.isNullish = false) (htext : (p.getField "address").toStr = some text) :
    ((create w.fw (poolsOptions input)).1 = .ok p →
        (deployPoolsProxy create input w).1 = .ok (p.getField "address")
        ∧ ∃ pre, (deployPoolsProxy create input w).2.trace
            = w.trace ++ [Event.created (poolsOptions input), Event.logged (pre ++ text)])
    ∧ ((create w.fw (privatesOptions input)).1 = .ok p →
        (deployPrivatesProxy create input w).1 = .ok (p.getField "address")
        ∧ ∃ pre, (deployPrivatesProxy create input w).2.trace
            = w.trace ++ [Event.created (privatesOptions input), Event.logged (pre ++ text)])
    ∧ ((create w.fw (validatorsRegistryOptions input)).1 = .ok p →
        (deployValidatorsRegistry create input w).1 = .ok (p.getField "address")
        ∧ ∃ pre, (deployValidatorsRegistry create input w).2.trace
            = w.trace ++ [Event.created (validatorsRegistryOptions input),
                Event.logged (pre ++ text)])
    ∧ (∀ a, p.getField "address" = .str a → text = a) := by
  refine ⟨fun h => ?_, fun h => ?_, fun h => ?_, fun a ha => ?_⟩
  · rw [deployPoolsProxy_record create input w hrec]
    exact ⟨(createAndReport_ok create _ _ w p text h hp htext).1, _,
      (createAndReport_ok create _ _ w p text h hp htext).2⟩
  · rw [deployPrivatesProxy_record create input w hrec]
    exact ⟨(createAndReport_ok create _ _ w p text h hp htext).1, _,
      (createAndReport_ok create _ _ w p text h hp htext).2⟩
  · rw [deployValidatorsRegistry_record create input w hrec]
    exact ⟨(createAndReport_ok create _ _ w p text h hp htext).1, _,
      (createAndReport_ok create _ _ w p text h hp htext).2⟩
  · rw [ha] at htext
    simp only [Val.toStr, Option.some.injEq] at htext
    exact htext.symm

/-- Witness of the amended C5: a stub returning the address `0xP001` for
Pools. -/
theorem C5_success_returns_address_witness :
    (exampleInput.isNullish = false
      ∧ (Val.obj [("address", .text "0xP001")]).isNullish = false
      ∧ ((Val.obj [("address", .text "0xP001")]).getField "address").toStr
          = some (utf16 "0xP001")
      ∧ (stubOk (.obj [("address", .text "0xP001")]) world0.fw (poolsOptions exampleInput)).1
          = .ok (.obj [("address", .text "0xP001")]))
    ∧ (deployPoolsProxy (stubOk (.obj [("address", .text "0xP001")])) exampleInput world0).1
        = .ok (.text "0xP001")
    ∧ ∃ pre, (deployPoolsProxy (stubOk (.obj [("address", .text "0xP001")]))
          exampleInput world0).2.trace
        = world0.trace ++ [Event.created (poolsOptions exampleInput),
            Event.logged (pre ++ utf16 "0xP001")] :=
  ⟨⟨rfl, rfl, rfl, rfl⟩,
   (C5_success_returns_address (stubOk (.obj [("address", .text "0xP001")])) exampleInput
     world0 (.obj [("address", .text "0xP001")]) (utf16 "0xP001") rfl rfl rfl).1 rfl⟩

/-- C6, as stated, fails for `deployValidatorsRegistry`: with the framework
address `0xV001` the line logged is `Validators Registry contract: 0xV001`,
with a space inside the name, not the alias followed by ` contract: 0xV001`. -/
theorem C6_registry_label_counterexample :
    (deployValidatorsRegistry (stubOk (.obj [("address", .text "0xV001")]))
        exampleRegistryInput world0).1 = .ok (.text "0xV001")
    ∧ logLines (deployValidatorsRegistry (stubOk (.obj [("address", .text "0xV001")]))
        exampleRegistryInput world0).2.trace
        = [utf16 "Validators Registry contract: 0xV001"]
    ∧ logLines (deployValidatorsRegistry (stubOk (.obj [("address", .text "0xV001")]))
        exampleRegistryInput world0).2.trace
        ≠ [utf16 "ValidatorsRegistry" ++ utf16 " contract: " ++ utf16 "0xV001"] := by
  have h : logLines (deployValidatorsRegistry (stubOk (.obj [("address", .text "0xV001")]))
      exampleRegistryInput world0).2.trace
      = [utf16 "Validators Registry contract: 0xV001"] := rfl
  refine ⟨rfl, h, ?_⟩
  rw [h]
  decide

/-- C6, amended. Every successful run of one of the three operations, with the
framework address `a`, emits exactly one log line: the label followed by the
text of `a` as the template literal renders it, which is `a` itself when `a`
is a string. The label is `Pools contract: ` for `deployPoolsProxy`,
`Privates contract: ` for `deployPrivatesProxy`, and
`Validators Registry contract: ` for `deployValidatorsRegistry`. -/
theorem C6_log_line {σ : Type} (create : Create σ) (input : Val)
    (w : World σ) (a : Val) :
    ((deployPoolsProxy create input w).1 = .ok a →
        ∃ p text, (create w.fw (poolsOptions input)).1 = .ok p
          ∧ p.getField "address" = a ∧ a.toStr = some text
          ∧ (∀ s, a = .str s → text = s)
          ∧ (deployPoolsProxy create input w).2.trace
            = w.trace ++ [Event.created (poolsOptions input),
                Event.logged (utf16 "Pools contract: " ++ text)])
    ∧ ((deployPrivatesProxy create input w).1 = .ok a →
        ∃ p text, (create w.fw (privatesOptions input)).1 = .ok p
          ∧ p.getField "address" = a ∧ a.toStr = some text
          ∧ (∀ s, a = .str s → text = s)
          ∧ (deployPrivatesProxy create input w).2.trace
            = w.trace ++ [Event.created (privatesOptions input),
                Event.logged (utf16 "Privates contract: " ++ text)])
    ∧ ((deployValidatorsRegistry create input w).1 = .ok a →
        ∃ p text, (create w.fw (validatorsRegistryOptions input)).1 = .ok p
          ∧ p.getField "address" = a ∧ a.toStr = some text
          ∧ (∀ s, a = .str s → text = s)
          ∧ (deployValidatorsRegistry create input w).2.trace
            = w.trace ++ [Event.created (validatorsRegistryOptions input),
                Event.logged (utf16 "Validators Registry contract: " ++ text)]) := by
  refine ⟨fun h => ?_, fun h => ?_, fun h => ?_⟩
  · have hn := (deployPoolsProxy_returns create input w a h).1
    rw [deployPoolsProxy_record create input w hn] at h ⊢
    exact createAndReport_success create _ _ w a h
  · have hn := (deployPrivatesProxy_returns create input w a h).1
    rw [deployPrivatesProxy_record create input w hn] at h ⊢
    exact createAndReport_success create _ _ w a h
  · have hn := (deployValidatorsRegistry_returns create input w a h).1
    rw [deployValidatorsRegistry_record create input w hn] at h ⊢
    exact createAndReport_success create _ _ w a h

/-- Witness of the amended C6: Pools with the stub address `0xP001` logs
`Pools contract: 0xP001`, and Pools with a proxy that has no `address` logs
`Pools contract: undefined`. -/
theorem C6_log_line_witness :
    ((deployPoolsProxy (stubOk (.obj [("address", .text "0xP001")])) exampleInput world0).1
        = .ok (.text "0xP001")
      ∧ (deployPoolsProxy (stubOk (.obj [("address", .text "0xP001")])) exampleInput
          world0).2.trace
        = world0.trace ++ [Event.created (poolsOptions exampleInput),
            Event.logged (utf16 "Pools contract: 0xP001")])
    ∧ ((deployPoolsProxy (stubOk (.obj [])) exampleInput world0).1 = .ok .undefined
      ∧ (deployPoolsProxy (stubOk (.obj [])) exampleInput world0).2.trace
        = world0.trace ++ [Event.created (poolsOptions exampleInput),
            Event.logged (utf16 "Pools contract: undefined")]) := by
  obtain ⟨_, text, _, _, ht, hs, htr⟩ :=
    (C6_log_line (stubOk (.obj [("address", .text "0xP001")])) exampleInput world0
      (.text "0xP001")).1 rfl
  obtain ⟨_, text', _, _, ht', _, htr'⟩ :=
    (C6_log_line (stubOk (.obj [])) exampleInput world0 .undefined).1 rfl
  have e1 : text = utf16 "0xP001" := hs _ rfl
  have e2 : text' = utf16 "undefined" := by
    simp only [Val.toStr, Option.some.injEq] at ht'
    exact ht'.symm
  subst e1; subst e2
  exact ⟨⟨rfl, htr⟩, ⟨rfl, htr'⟩⟩

/-- C7. For every framework stub and every input: if `deployPoolsProxy`
returns `A`, `deployPrivatesProxy` then returns `B`, and
`deployValidatorsRegistry` is then called with `poolsProxy = A`,
`privatesProxy = B`, `settingsProxy = S` and a `networkConfig` that defines
none of the four fixed keys, the `methodArgs` of that third `create` call is
the list `A`, `B`, `S`, where `A` and `B` are the addresses of the proxies that
the framework returned for the Pools and the Privates `create` calls. -/
theorem C7_registry_args_from_returned_addresses {σ : Type} (create : Create σ)
    (input registryInput : Val) (w : World σ) (A B : Val)
    (hA : (deployPoolsProxy create input w).1 = .ok A)
    (hB : (deployPrivatesProxy create input (deployPoolsProxy create input w).2).1 = .ok B)
    (hrec : registryInput.isNullish = false)
    (hpools : registryInput.getField "poolsProxy" = A)
    (hprivates : registryInput.getField "privatesProxy" = B)
    (hArgs : (registryInput.getField "networkConfig").definesKey "methodArgs" = false) :
    ∃ poolsProxy privatesProxy opts rest,
      (create w.fw (poolsOptions input)).1 = .ok poolsProxy
      ∧ poolsProxy.getField "address" = A
      ∧ (create (deployPoolsProxy create input w).2.fw (privatesOptions input)).1
          = .ok privatesProxy
      ∧ privatesProxy.getField "address" = B
      ∧ (deployValidatorsRegistry create registryInput
            (deployPrivatesProxy create input (deployPoolsProxy create input w).2).2).2.trace
          = (deployPrivatesProxy create input (deployPoolsProxy create input w).2).2.trace
              ++ Event.created opts :: rest
      ∧ createCalls rest = []
      ∧ opts.own "methodArgs"
          = some (.arr [A, B, registryInput.getField "settingsProxy"]) := by
  obtain ⟨_, p1, hc1, ha1⟩ := deployPoolsProxy_returns create input w A hA
  obtain ⟨_, p2, hc2, ha2⟩ := deployPrivatesProxy_returns create input _ B hB
  obtain ⟨rest, htrace, hcalls⟩ := createAndReport_call create
    "Validators Registry contract: " (validatorsRegistryOptions registryInput)
    (deployPrivatesProxy create input (deployPoolsProxy create input w).2).2
  refine ⟨p1, p2, validatorsRegistryOptions registryInput, rest, hc1, ha1, hc2, ha2, ?_,
    hcalls, ?_⟩
  · rw [deployValidatorsRegistry_record create registryInput _ hrec]; exact htrace
  · unfold validatorsRegistryOptions
    rw [own_fixed_of_not_defined _ _ _ hArgs, hpools, hprivates]
    rfl

/-- Witness of C7: a stub that returns the proxy `0xP001` for its first call
and `0xR001` for every later one, and a registry input built from the two
returned addresses. -/
theorem C7_registry_args_from_returned_addresses_witness :
    ((deployPoolsProxy stubNth exampleInput worldNth).1 = .ok (.text "0xP001")
      ∧ (deployPrivatesProxy stubNth exampleInput
          (deployPoolsProxy stubNth exampleInput worldNth).2).1 = .ok (.text "0xR001")
      ∧ exampleRegistryInput.isNullish = false
      ∧ exampleRegistryInput.getField "poolsProxy" = .text "0xP001"
      ∧ exampleRegistryInput.getField "privatesProxy" = .text "0xR001"
      ∧ (exampleRegistryInput.getField "networkConfig").definesKey "methodArgs" = false)
    ∧ ∃ poolsProxy privatesProxy opts rest,
      (stubNth worldNth.fw (poolsOptions exampleInput)).1 = .ok poolsProxy
      ∧ poolsProxy.getField "address" = .text "0xP001"
      ∧ (stubNth (deployPoolsProxy stubNth exampleInput worldNth).2.fw
          (privatesOptions exampleInput)).1 = .ok privatesProxy
      ∧ privatesProxy.getField "address" = .text "0xR001"
      ∧ (deployValidatorsRegistry stubNth exampleRegistryInput
            (deployPrivatesProxy stubNth exampleInput
              (deployPoolsProxy stubNth exampleInput worldNth).2).2).2.trace
          = (deployPrivatesProxy stubNth exampleInput
              (deployPoolsProxy stubNth exampleInput worldNth).2).2.trace
              ++ Event.created opts :: rest
      ∧ createCalls rest = []
      ∧ opts.own "methodArgs"
          = some (.arr [.text "0xP001", .text "0xR001", .text "0xS1"]) :=
  ⟨⟨rfl, rfl, rfl, rfl, rfl, rfl⟩,
   C7_registry_args_from_returned_addresses stubNth exampleInput exampleRegistryInput
     worldNth (.text "0xP001") (.text "0xR001") rfl rfl rfl rfl rfl rfl⟩

/-- C8, as stated, fails: an operation raises a `TypeError` of its own when
`create` resolves with `null` (the call itself did not fail), and when the
input record is missing (`create` is not even called). -/
theorem C8_own_error_counterexample :
    ((stubOk .null) world0.fw (poolsOptions exampleInput)).1 = .ok .null
    ∧ (deployPoolsProxy (stubOk .null) exampleInput world0).1 = .error .typeError
    ∧ (deployValidatorsRegistry (stubOk .undefined) exampleRegistryInput world0).1
        = .error .typeError
    ∧ (deployPoolsProxy (stubOk (.obj [("address", .text "0xP001")])) .undefined world0).1
        = .error .typeError
    ∧ (deployPoolsProxy (stubOk (.obj [("address", .text "0xP001")])) .undefined
        world0).2.trace = []
    ∧ ¬ (∀ (create : Create Unit) (input : Val) (w : World Unit) (t : Thrown),
          (deployPoolsProxy create input w).1 = .error t →
          ∃ e, t = .raised e ∧ (create w.fw (poolsOptions input)).1 = .error e) := by
  refine ⟨rfl, rfl, rfl, rfl, rfl, ?_⟩
  intro h
  obtain ⟨e, he, _⟩ := h (stubOk .null) exampleInput world0 .typeError rfl
  cases he

/-- C8, amended. Whenever one of the three operations fails with `t`, either
`create` failed and `t` is the error of `create`, or `t` is a `TypeError` of
the operation itself, raised in one of three situations: the input record is
missing (`undefined` or `null`), and then `create` is not called and nothing
changes; `create` resolved with `undefined` or `null`; or `create` resolved
with a proxy whose `address` a template literal cannot render. -/
theorem C8_failure_sources {σ : Type} (create : Create σ) (input : Val)
    (w : World σ) (t : Thrown) :
    ((deployPoolsProxy create input w).1 = .error t →
        (∃ e, t = .raised e ∧ input.isNullish = false
            ∧ (create w.fw (poolsOptions input)).1 = .error e)
        ∨ (t = .typeError ∧ input.isNullish = true
            ∧ (deployPoolsProxy create input w).2 = w)
        ∨ (t = .typeError ∧ input.isNullish = false
            ∧ ∃ p, (create w.fw (poolsOptions input)).1 = .ok p
              ∧ (p.isNullish = true ∨ (p.getField "address").toStr = none)))
    ∧ ((deployPrivatesProxy create input w).1 = .error t →
        (∃ e, t = .raised e ∧ input.isNullish = false
            ∧ (create w.fw (privatesOptions input)).1 = .error e)
        ∨ (t = .typeError ∧ input.isNullish = true
            ∧ (deployPrivatesProxy create input w).2 = w)
        ∨ (t = .typeError ∧ input.isNullish = false
            ∧ ∃ p, (create w.fw (privatesOptions input)).1 = .ok p
              ∧ (p.isNullish = true ∨ (p.getField "address").toStr = none)))
    ∧ ((deployValidatorsRegistry create input w).1 = .error t →
        (∃ e, t = .raised e ∧ input.isNullish = false
            ∧ (create w.fw (validatorsRegistryOptions input)).1 = .error e)
        ∨ (t = .typeError ∧ input.isNullish = true
            ∧ (deployValidatorsRegistry create input w).2 = w)
        ∨ (t = .typeError ∧ input.isNullish = false
            ∧ ∃ p, (create w.fw (validatorsRegistryOptions input)).1 = .ok p
              ∧ (p.isNullish = true ∨ (p.getField "address").toStr = none))) := by
  refine ⟨fun h => ?_, fun h => ?_, fun h => ?_⟩
  · cases hn : input.isNullish with
    | true =>
      simp only [deployPoolsProxy, hn, if_true] at h ⊢
      injection h with h
      exact Or.inr (Or.inl ⟨h.symm, trivial, trivial⟩)
    | false =>
      rw [deployPoolsProxy_record create input w hn] at h
      rcases createAndReport_fails create _ _ w t h with ⟨e, he, hc⟩ | ⟨ht, hp⟩
      · exact Or.inl ⟨e, he, rfl, hc⟩
      · exact Or.inr (Or.inr ⟨ht, rfl, hp⟩)
  · cases hn : input.isNullish with
    | true =>
      simp only [deployPrivatesProxy, hn, if_true] at h ⊢
      injection h with h
      exact Or.inr (Or.inl ⟨h.symm, trivial, trivial⟩)
    | false =>
      rw [deployPrivatesProxy_record create input w hn] at h
      rcases createAndReport_fails create _ _ w t h with ⟨e, he, hc⟩ | ⟨ht, hp⟩
      · exact Or.inl ⟨e, he, rfl, hc⟩
      · exact Or.inr (Or.inr ⟨ht, rfl, hp⟩)
  · cases hn : input.isNullish with
    | true =>
      simp only [deployValidatorsRegistry, hn, if_true] at h ⊢
      injection h with h
      exact Or.inr (Or.inl ⟨h.symm, trivial, trivial⟩)
    | false =>
      rw [deployValidatorsRegistry_record create input w hn] at h
      rcases createAndReport_fails create _ _ w t h with ⟨e, he, hc⟩ | ⟨ht, hp⟩
      · exact Or.inl ⟨e, he, rfl, hc⟩
      · exact Or.inr (Or.inr ⟨ht, rfl, hp⟩)

/-- Witness of the amended C8: a stub whose `create` resolves with `null`. -/
theorem C8_failure_sources_witness :
    (deployPoolsProxy (stubOk .null) exampleInput world0).1 = .error .typeError
    ∧ ((∃ e, Thrown.typeError = .raised e ∧ exampleInput.isNullish = false
            ∧ ((stubOk .null) world0.fw (poolsOptions exampleInput)).1 = .error e)
        ∨ (Thrown.typeError = .typeError ∧ exampleInput.isNullish = true
            ∧ (deployPoolsProxy (stubOk .null) exampleInput world0).2 = world0)
        ∨ (Thrown.typeError = .typeError ∧ exampleInput.isNullish = false
            ∧ ∃ p, ((stubOk .null) world0.fw (poolsOptions exampleInput)).1 = .ok p
              ∧ (p.isNullish = true ∨ (p.getField "address").toStr = none))) :=
  ⟨rfl, (C8_failure_sources (stubOk .null) exampleInput world0 .typeError).1 rfl⟩

/-- C9, as stated, fails when the input record is missing: destructuring
`undefined` throws before `create` is called, so the invocation makes no call
to `create` at all. -/
theorem C9_no_call_counterexample :
    (deployPoolsProxy (stubOk (.obj [("address", .text "0xP001")])) .undefined world0).1
        = .error .typeError
    ∧ createCalls (deployPoolsProxy (stubOk (.obj [("address", .text "0xP001")])) .undefined
        world0).2.trace = []
    ∧ (createCalls (deployPoolsProxy (stubOk (.obj [("address", .text "0xP001")])) .undefined
        world0).2.trace).length ≠ 1 := by
  refine ⟨rfl, rfl, ?_⟩
  decide

/-- C9, amended. For every input record (an argument that is neither
`undefined` nor `null`) and every framework stub, one invocation of each
operation makes exactly one call to `create`, whether that call succeeds or
fails, and the framework is left in the state that this one call produced; a
log call happens only after that call, and only when it resolved. When the
input record is missing, the invocation calls neither `create` nor `log`. -/
theorem C9_single_create_call {σ : Type} (create : Create σ) (input : Val)
    (w : World σ) :
    (input.isNullish = true →
        (deployPoolsProxy create input w).2 = w
        ∧ (deployPrivatesProxy create input w).2 = w
        ∧ (deployValidatorsRegistry create input w).2 = w)
    ∧ (input.isNullish = false →
        ((deployPoolsProxy create input w).2.fw = (create w.fw (poolsOptions input)).2
          ∧ ((deployPoolsProxy create input w).2.trace
                = w.trace ++ [Event.created (poolsOptions input)]
              ∨ ∃ p line, (create w.fw (poolsOptions input)).1 = .ok p
                ∧ (deployPoolsProxy create input w).2.trace
                  = w.trace ++ [Event.created (poolsOptions input), Event.logged line]))
        ∧ ((deployPrivatesProxy create input w).2.fw
              = (create w.fw (privatesOptions input)).2
          ∧ ((deployPrivatesProxy create input w).2.trace
                = w.trace ++ [Event.created (privatesOptions input)]
              ∨ ∃ p line, (create w.fw (privatesOptions input)).1 = .ok p
                ∧ (deployPrivatesProxy create input w).2.trace
                  = w.trace ++ [Event.created (privatesOptions input), Event.logged line]))
        ∧ ((deployValidatorsRegistry create input w).2.fw
              = (create w.fw (validatorsRegistryOptions input)).2
          ∧ ((deployValidatorsRegistry create input w).2.trace
                = w.trace ++ [Event.created (validatorsRegistryOptions input)]
              ∨ ∃ p line, (create w.fw (validatorsRegistryOptions input)).1 = .ok p
                ∧ (deployValidatorsRegistry create input w).2.trace
                  = w.trace ++ [Event.created (validatorsRegistryOptions input),
                      Event.logged line]))) := by
  constructor
  · intro hn
    simp [deployPoolsProxy, deployPrivatesProxy, deployValidatorsRegistry, hn]
  · intro hn
    rw [deployPoolsProxy_record create input w hn,
      deployPrivatesProxy_record create input w hn,
      deployValidatorsRegistry_record create input w hn]
    refine ⟨⟨createAndReport_fw _ _ _ _, ?_⟩, ⟨createAndReport_fw _ _ _ _, ?_⟩,
      ⟨createAndReport_fw _ _ _ _, ?_⟩⟩
    · rcases createAndReport_trace create "Pools contract: " (poolsOptions input) w with
        h | ⟨p, text, hc, h⟩
      · exact Or.inl h
      · exact Or.inr ⟨p, _, hc, h⟩
    · rcases createAndReport_trace create "Privates contract: " (privatesOptions input) w with
        h | ⟨p, text, hc, h⟩
      · exact Or.inl h
      · exact Or.inr ⟨p, _, hc, h⟩
    · rcases createAndReport_trace create "Validators Registry contract: "
        (validatorsRegistryOptions input) w with h | ⟨p, text, hc, h⟩
      · exact Or.inl h
      · exact Or.inr ⟨p, _, hc, h⟩

/-- Witness of the amended C9: the counting stub on the spec's example
record; after the run the counter stands at one. -/
theorem C9_single_create_call_witness :
    exampleInput.isNullish = false
    ∧ (deployPoolsProxy stubNth exampleInput worldNth).2.fw = 1
    ∧ ((deployPoolsProxy stubNth exampleInput worldNth).2.fw
          = (stubNth worldNth.fw (poolsOptions exampleInput)).2
        ∧ ((deployPoolsProxy stubNth exampleInput worldNth).2.trace
              = worldNth.trace ++ [Event.created (poolsOptions exampleInput)]
            ∨ ∃ p line, (stubNth worldNth.fw (poolsOptions exampleInput)).1 = .ok p
              ∧ (deployPoolsProxy stubNth exampleInput worldNth).2.trace
                = worldNth.trace ++ [Event.created (poolsOptions exampleInput),
                    Event.logged line])) :=
  ⟨rfl, rfl, ((C9_single_create_call stubNth exampleInput worldNth).2 rfl).1⟩

/-- C10. For each of the three operations and every input record, the options
object passed to `create` is the right-biased merge of the fixed fields
`contractAlias`, `methodName`, `methodArgs`, `salt` with `networkConfig`: a key
that `networkConfig` defines has the value of `networkConfig`, also when it is
one of the four fixed keys, and every other key has the fixed value. A
`networkConfig` that is `undefined` or `null` contributes no keys. With
`networkConfig` the object whose only property is `methodArgs`, an empty list,
`deployPoolsProxy` calls `create` with an empty argument list. -/
theorem C10_options_right_biased_merge {σ : Type} (create : Create σ) (input : Val)
    (w : World σ) (hrec : input.isNullish = false) :
    (∃ rest, (deployPoolsProxy create input w).2.trace
          = w.trace ++ Event.created (poolsOptions input) :: rest
        ∧ createCalls rest = []
        ∧ ∀ k, (poolsOptions input).own k
            = mergeRight (fixedFields "Pools" [input.getField "depositsProxy",
                input.getField "settingsProxy", input.getField "operatorsProxy",
                input.getField "vrc", input.getField "validatorsRegistryProxy"]
                (input.getField "salt")) (input.getField "networkConfig") k)
    ∧ (∃ rest, (deployPrivatesProxy create input w).2.trace
          = w.trace ++ Event.created (privatesOptions input) :: rest
        ∧ createCalls rest = []
        ∧ ∀ k, (privatesOptions input).own k
            = mergeRight (fixedFields "Privates" [input.getField "depositsProxy",
                input.getField "settingsProxy", input.getField "operatorsProxy",
                input.getField "vrc", input.getField "validatorsRegistryProxy"]
                (input.getField "salt")) (input.getField "networkConfig") k)
    ∧ (∃ rest, (deployValidatorsRegistry create input w).2.trace
          = w.trace ++ Event.created (validatorsRegistryOptions input) :: rest
        ∧ createCalls rest = []
        ∧ ∀ k, (validatorsRegistryOptions input).own k
            = mergeRight (fixedFields "ValidatorsRegistry" [input.getField "poolsProxy",
                input.getField "privatesProxy", input.getField "settingsProxy"]
                (input.getField "salt")) (input.getField "networkConfig") k)
    ∧ (∀ k v, (input.getField "networkConfig").own k = some v →
        (poolsOptions input).own k = some v
        ∧ (privatesOptions input).own k = some v
        ∧ (validatorsRegistryOptions input).own k = some v)
    ∧ ((input.getField "networkConfig").isNullish = true →
        poolsOptions input = fixedFields "Pools" [input.getField "depositsProxy",
            input.getField "settingsProxy", input.getField "operatorsProxy",
            input.getField "vrc", input.getField "validatorsRegistryProxy"]
            (input.getField "salt")
        ∧ privatesOptions input = fixedFields "Privates" [input.getField "depositsProxy",
            input.getField "settingsProxy", input.getField "operatorsProxy",
            input.getField "vrc", input.getField "validatorsRegistryProxy"]
            (input.getField "salt")
        ∧ validatorsRegistryOptions input = fixedFields "ValidatorsRegistry"
            [input.getField "poolsProxy", input.getField "privatesProxy",
             input.getField "settingsProxy"] (input.getField "salt"))
    ∧ (input.getField "networkConfig" = .obj [("methodArgs", .arr [])] →
        (poolsOptions input).own "methodArgs" = some (.arr [])) := by
  obtain ⟨r1, ht1, hc1⟩ :=
    createAndReport_call create "Pools contract: " (poolsOptions input) w
  obtain ⟨r2, ht2, hc2⟩ :=
    createAndReport_call create "Privates contract: " (privatesOptions input) w
  obtain ⟨r3, ht3, hc3⟩ := createAndReport_call create "Validators Registry contract: "
    (validatorsRegistryOptions input) w
  rw [← deployPoolsProxy_record create input w hrec] at ht1
  rw [← deployPrivatesProxy_record create input w hrec] at ht2
  rw [← deployValidatorsRegistry_record create input w hrec] at ht3
  have m1 := fun k => own_spread_eq_mergeRight
    [("contractAlias", .text "Pools"), ("methodName", .text "initialize"),
     ("methodArgs", .arr [input.getField "depositsProxy", input.getField "settingsProxy",
        input.getField "operatorsProxy", input.getField "vrc",
        input.getField "validatorsRegistryProxy"]),
     ("salt", input.getField "salt")] (input.getField "networkConfig") k
  have m2 := fun k => own_spread_eq_mergeRight
    [("contractAlias", .text "Privates"), ("methodName", .text "initialize"),
     ("methodArgs", .arr [input.getField "depositsProxy", input.getField "settingsProxy",
        input.getField "operatorsProxy", input.getField "vrc",
        input.getField "validatorsRegistryProxy"]),
     ("salt", input.getField "salt")] (input.getField "networkConfig") k
  have m3 := fun k => own_spread_eq_mergeRight
    [("contractAlias", .text "ValidatorsRegistry"), ("methodName", .text "initialize"),
     ("methodArgs", .arr [input.getField "poolsProxy", input.getField "privatesProxy",
        input.getField "settingsProxy"]),
     ("salt", input.getField "salt")] (input.getField "networkConfig") k
  refine ⟨⟨r1, ht1, hc1, m1⟩, ⟨r2, ht2, hc2, m2⟩, ⟨r3, ht3, hc3, m3⟩, ?_, ?_, ?_⟩
  · intro k v hv
    refine ⟨?_, ?_, ?_⟩
    · exact (m1 k).trans (by simp only [mergeRight, hv])
    · exact (m2 k).trans (by simp only [mergeRight, hv])
    · exact (m3 k).trans (by simp only [mergeRight, hv])
  · intro hn
    have he := ownEntries_of_nullish _ hn
    simp only [poolsOptions, privatesOptions, validatorsRegistryOptions, fixedFields, he,
      List.append_nil, and_self]
  · intro hnc
    exact (m1 "methodArgs").trans (by rw [hnc]; rfl)

/-- Witness of C10: an input record whose `networkConfig` is the object with
the single property `methodArgs`, an empty list, which replaces the five
arguments; one whose `networkConfig` is a two-element array, spread under the
keys `0` and `1`; and one whose `networkConfig` is a string of one character
outside the Basic Multilingual Plane, spread as its two code units. -/
theorem C10_options_right_biased_merge_witness :
    ((inputWithConfig (.obj [("methodArgs", .arr [])])).isNullish = false
      ∧ (poolsOptions (inputWithConfig (.obj [("methodArgs", .arr [])]))).own "methodArgs"
          = some (.arr [])
      ∧ (poolsOptions (inputWithConfig (.obj [("methodArgs", .arr [])]))).own "contractAlias"
          = some (.text "Pools"))
    ∧ ((poolsOptions (inputWithConfig (.arr [.text "a", .null]))).own "0" = some (.text "a")
      ∧ (poolsOptions (inputWithConfig (.arr [.text "a", .null]))).own "1" = some .null
      ∧ (poolsOptions (inputWithConfig (.arr [.text "a", .null]))).own "2" = none
      ∧ (poolsOptions (inputWithConfig (.arr [.text "a", .null]))).own "methodName"
          = some (.text "initialize"))
    ∧ ((poolsOptions (inputWithConfig (.text "😀"))).own "0" = some (.str [0xD83D])
      ∧ (poolsOptions (inputWithConfig (.text "😀"))).own "1" = some (.str [0xDE00])
      ∧ (poolsOptions (inputWithConfig (.text "😀"))).own "2" = none
      ∧ (poolsOptions (inputWithConfig (.text "😀"))).own "salt"
          = some (.text "0x5a17")) := by
  obtain ⟨⟨_, _, _, m1⟩, _, _, _, _, e1⟩ := C10_options_right_biased_merge
    (stubOk (.obj [("address", .text "0xP001")]))
    (inputWithConfig (.obj [("methodArgs", .arr [])])) world0 rfl
  obtain ⟨⟨_, _, _, m2⟩, _⟩ := C10_options_right_biased_merge
    (stubOk (.obj [("address", .text "0xP001")]))
    (inputWithConfig (.arr [.text "a", .null])) world0 rfl
  obtain ⟨⟨_, _, _, m3⟩, _⟩ := C10_options_right_biased_merge
    (stubOk (.obj [("address", .text "0xP001")]))
    (inputWithConfig (.text "😀")) world0 rfl
  exact ⟨⟨rfl, e1 rfl, (m1 "contractAlias").trans rfl⟩,
    ⟨(m2 "0").trans rfl, (m2 "1").trans rfl, (m2 "2").trans rfl,
      (m2 "methodName").trans rfl⟩,
    ⟨(m3 "0").trans rfl, (m3 "1").trans rfl, (m3 "2").trans rfl, (m3 "salt").trans rfl⟩⟩

end Deployments
